import Mathlib

/-!
Verification of the meshio Gmsh codec (`meshio/gmsh/common.py`,
`meshio/gmsh/main.py`) and the XDMF time-series codec
(`meshio/xdmf/time_series.py`) against their natural-language
specification.  Every definition below is a shallow embedding of the
corresponding Python function; numeric payloads are carried as abstract
values (`Int` in concrete instances) since the properties verified are
structural, not arithmetic.
-/

instance {ε α : Type} [DecidableEq ε] [DecidableEq α] : DecidableEq (Except ε α) :=
  fun x y =>
    match x, y with
    | .ok a, .ok b =>
      if h : a = b then .isTrue (by rw [h])
      else .isFalse (by intro he; injection he; contradiction)
    | .error e, .error f =>
      if h : e = f then .isTrue (by rw [h])
      else .isFalse (by intro he; injection he; contradiction)
    | .ok _, .error _ => .isFalse (fun h => Except.noConfusion h)
    | .error _, .ok _ => .isFalse (fun h => Except.noConfusion h)

namespace Gmsh

/-- A numpy array as it flows through `_read_data` / `_write_data`:
either 1-dimensional (`shape == (n,)`) or 2-dimensional
(`shape == (n, cols)`, rows listed in order).  `mat` carries the column
count explicitly, as the numpy shape does. -/
inductive GArr (α : Type) where
  | flat : List α → GArr α
  | mat : Nat → List (List α) → GArr α
deriving DecidableEq, Repr

/-- `data.shape[1] if len(data.shape) > 1 else 1` (common.py line 175). -/
def num_components {α : Type} : GArr α → Nat
  | .flat _ => 1
  | .mat c _ => c

/-- `data.shape[0]`: the number of items. -/
def shape0 {α : Type} : GArr α → Nat
  | .flat l => l.length
  | .mat _ rows => rows.length

/-- `if len(data.shape) > 1 and data.shape[1] == 1: data = data[:, 0]`
(common.py lines 185-186): cut a trailing singleton dimension. -/
def cutTrailingDim {α : Type} [Inhabited α] : GArr α → GArr α
  | .flat l => .flat l
  | .mat c rows => if c = 1 then .flat (rows.map (fun r => r.headD default)) else .mat c rows

/-- One `fh.write(...)` call made by `_write_data`: either a literal text
line, or one ASCII data record `fmt.format(k + 1, *x)`, or one binary
record of the structured dtype `(index, values)`.  Values are kept
structured rather than rendered, since Python renders them with `{!r}`
(exact round-trip repr) resp. raw IEEE bytes. -/
inductive Chunk (α : Type) where
  | line : String → Chunk α
  | arec : Int → List α → Chunk α
  | brec : Int → List α → Chunk α
deriving DecidableEq, Repr

/-- Attach 1-based indices starting at `k` to a list of value rows; the
index sequence `1 + numpy.arange(len(data))` resp. `enumerate(data)`
with `k + 1` in `_write_data`. -/
def idxFrom {α : Type} (k : Int) : List (List α) → List (Int × List α)
  | [] => []
  | r :: rs => (k, r) :: idxFrom (k + 1) rs

/-- The indexed records `_write_data` emits for an array (after the
trailing-dimension cut): row `i` of the data prefixed with index `i+1`.
A 1-D array yields one-value rows. -/
def write_records {α : Type} : GArr α → List (Int × List α)
  | .flat l => idxFrom 1 (l.map (fun x => [x]))
  | .mat _ rows => idxFrom 1 rows

/-- Shallow embedding of `_write_data(fh, tag, name, data, binary)`
(common.py lines 158-213).  Returns the list of chunks written to `fh`,
in order, paired with `some errorMessage` when `WriteError` is raised
(`none` on success).  Note the seven header lines are written BEFORE the
component-count check, exactly as in the source. -/
def write_data {α : Type} [Inhabited α] (tag name : String) (data : GArr α)
    (binary : Bool) : List (Chunk α) × Option String :=
  let hdr : List (Chunk α) :=
    [ .line ("$" ++ tag ++ "\n"),
      .line "1\n",
      .line ("\"" ++ name ++ "\"\n"),
      .line "1\n",
      .line "0.0\n",
      .line "3\n",
      .line "0\n" ]
  let nc := num_components data
  if nc = 1 ∨ nc = 3 ∨ nc = 9 then
    let data' := cutTrailingDim data
    let recs := write_records data'
    let body : List (Chunk α) :=
      [ .line (toString nc ++ "\n"), .line (toString (shape0 data') ++ "\n") ] ++
      (if binary then recs.map (fun r => Chunk.brec r.1 r.2) ++ [.line "\n"]
       else recs.map (fun r => Chunk.arec r.1 r.2)) ++
      [ .line ("$End" ++ tag ++ "\n") ]
    (hdr ++ body, none)
  else
    (hdr, some "Gmsh only permits 1, 3, or 9 components per data field.")

/-- Shared tail of `_read_data` (common.py lines 61-64): the value matrix
with the index column already gone has `shape == (n, num_components)`;
if that second dimension is 1 it is cut off. -/
def postShape {α : Type} [Inhabited α] (num_components : Nat)
    (rows : List (List α)) : GArr α :=
  if num_components = 1 then .flat (rows.map (fun r => r.headD default))
  else .mat num_components rows

/-- ASCII branch of `_read_data` (common.py lines 42-47): the token
stream reshaped to rows of width `1 + num_components`; the first entry
of each row (the node number) is dropped with no check. -/
def read_data_ascii {α : Type} [Inhabited α] (num_components : Nat)
    (dat : List (List α)) : GArr α :=
  postShape num_components (dat.map (fun row => row.tail))

/-- Binary branch of `_read_data` (common.py lines 48-54): structured
records `(index, values)`; unless the index fields are exactly
`range(1, num_items + 1)` a `ReadError` is raised. -/
def read_data_binary {α : Type} [Inhabited α] (num_components : Nat)
    (records : List (Int × List α)) : Except String (GArr α) :=
  if records.map Prod.fst = (List.range' 1 records.length).map Int.ofNat then
    .ok (postShape num_components (records.map Prod.snd))
  else
    .error "ReadError"

/-- A Python value sitting in a `field_data` entry, as far as `int(...)`
coercion is concerned: either coercible to a concrete integer or not
(coercion raises `ValueError`/`TypeError`). -/
inductive PVal where
  | intLike : Int → PVal
  | notIntLike : PVal
deriving DecidableEq, Repr

/-- `int(v)` under `try/except (ValueError, TypeError)`. -/
def coerceInt : PVal → Option Int
  | .intLike n => some n
  | .notIntLike => none

/-- The body of the `try` in `_write_physical_names` (common.py lines
143-146): unpack `phys_num, phys_dim = field_data[phys_name]` (a
`ValueError` unless the value has exactly two items), coerce both to
`int`, and build the entry `(phys_dim, phys_num, phys_name)`. -/
def physEntry (phys_name : String) : List PVal → Option (Int × Int × String)
  | [a, b] => do
    let phys_num ← coerceInt a
    let phys_dim ← coerceInt b
    some (phys_dim, phys_num, phys_name)
  | _ => none

/-- Python tuple comparison on `(dim, num, name)` triples:
lexicographic, used by `entries.sort()`. -/
def entryLe (a b : Int × Int × String) : Prop :=
  a.1 < b.1 ∨ (a.1 = b.1 ∧ (a.2.1 < b.2.1 ∨ (a.2.1 = b.2.1 ∧ a.2.2 ≤ b.2.2)))

instance : DecidableRel entryLe := by
  intro a b
  unfold entryLe
  infer_instance

instance : IsTotal (Int × Int × String) entryLe := by
  constructor
  intro a b
  unfold entryLe
  rcases lt_trichotomy a.1 b.1 with h | h | h
  · exact Or.inl (Or.inl h)
  · rcases lt_trichotomy a.2.1 b.2.1 with h2 | h2 | h2
    · exact Or.inl (Or.inr ⟨h, Or.inl h2⟩)
    · rcases le_total a.2.2 b.2.2 with h3 | h3
      · exact Or.inl (Or.inr ⟨h, Or.inr ⟨h2, h3⟩⟩)
      · exact Or.inr (Or.inr ⟨h.symm, Or.inr ⟨h2.symm, h3⟩⟩)
    · exact Or.inr (Or.inr ⟨h.symm, Or.inl h2⟩)
  · exact Or.inr (Or.inl h)

instance : IsTrans (Int × Int × String) entryLe := by
  constructor
  intro a b c hab hbc
  unfold entryLe at *
  rcases hab with h1 | ⟨e1, h1⟩
  · rcases hbc with h2 | ⟨e2, h2⟩
    · exact Or.inl (h1.trans h2)
    · exact Or.inl (e2 ▸ h1)
  · rcases hbc with h2 | ⟨e2, h2⟩
    · exact Or.inl (by rw [e1]; exact h2)
    · refine Or.inr ⟨e1.trans e2, ?_⟩
      rcases h1 with g1 | ⟨f1, g1⟩ <;> rcases h2 with g2 | ⟨f2, g2⟩
      · exact Or.inl (g1.trans g2)
      · exact Or.inl (f2 ▸ g1)
      · exact Or.inl (by rw [f1]; exact g2)
      · exact Or.inr ⟨f1.trans f2, g1.trans g2⟩

/-- The formatted physical-name line of common.py line 154, for
`entry == (phys_dim, phys_num, phys_name)`: the dimension comes first on
the line, then the id, then the quoted name. -/
def physLine (e : Int × Int × String) : String :=
  toString e.1 ++ " " ++ toString e.2.1 ++ " \"" ++ e.2.2 ++ "\"\n"

/-- Shallow embedding of `_write_physical_names(fh, field_data)`
(common.py lines 139-155).  Returns the text lines written to `fh` (in
order) and the number of warnings logged.  Coercible entries are
collected, sorted (`entries.sort()`), and emitted via `physLine`; each
non-coercible entry logs one warning. -/
def write_physical_names (field_data : List (String × List PVal)) :
    List String × Nat :=
  let entries := field_data.filterMap (fun p => physEntry p.1 p.2)
  let numWarnings := field_data.length - entries.length
  let sorted := List.insertionSort entryLe entries
  let lines :=
    if sorted.isEmpty then []
    else
      ["$PhysicalNames\n", toString sorted.length ++ "\n"] ++
      sorted.map physLine ++
      ["$EndPhysicalNames\n"]
  (lines, numWarnings)

/-- The gmsh reader/writer submodules dispatch can select
(`_gmsh22`, `_gmsh40`, `_gmsh41` in main.py line 5). -/
inductive GmshMod where
  | gmsh22 | gmsh40 | gmsh41
deriving DecidableEq, Repr

/-- `_readers` (main.py line 7), insertion order preserved as in a
Python dict. -/
def readersList : List (String × GmshMod) :=
  [("2", .gmsh22), ("4", .gmsh40), ("4.0", .gmsh40), ("4.1", .gmsh41)]

/-- `_readers[v]` with `KeyError` as `none`. -/
def lookupReader (v : String) : Option GmshMod :=
  (readersList.find? (fun p => p.1 == v)).map Prod.snd

/-- `fmt_version.split(".")[0]` (main.py line 38): the characters before
the first `.` (the whole string when there is no `.`). -/
def headBeforeDot (v : String) : String :=
  String.mk (v.data.takeWhile (fun c => c ≠ '.'))

/-- Python string comparison `a <= b` on lists of code points:
lexicographic by `ord`. -/
def charsLe : List Char → List Char → Bool
  | [], _ => true
  | _ :: _, [] => false
  | c :: cs, d :: ds =>
    if c.toNat < d.toNat then true
    else if d.toNat < c.toNat then false
    else charsLe cs ds

/-- Python string comparison `a <= b`. -/
def strLe (a b : String) : Bool :=
  charsLe a.data b.data

/-- `sorted(_readers.keys())` (main.py line 42): Python `sorted` on the
dict keys, in code-point order. -/
def sortedVersions : List String :=
  List.insertionSort (fun a b => strLe a b = true) (readersList.map Prod.fst)

/-- Python repr of a list of strings, as string formatting renders it:
a bracketed, comma-separated list of single-quoted items. -/
def pyListRepr (l : List String) : String :=
  "[" ++ String.intercalate ", " (l.map (fun s => "\x27" ++ s ++ "\x27")) ++ "]"

/-- The `ValueError` message of main.py lines 40-44. -/
def dispatchMsg (v : String) : String :=
  "Need mesh format in " ++ pyListRepr sortedVersions ++ " (got " ++ v ++ ")"

/-- Version dispatch of `read_buffer` (main.py lines 34-44): exact key
first, then the text before the first `.`, else the fatal error. -/
def readerFor (v : String) : Except String GmshMod :=
  match lookupReader v with
  | some m => .ok m
  | none =>
    match lookupReader (headBeforeDot v) with
    | some m => .ok m
    | none => .error (dispatchMsg v)

end Gmsh

namespace Xdmf

/-- An XML element as the mesh-grid search of `TimeSeriesReader.__init__`
sees it: its tag and its optional `GridType` attribute (`none` models a
missing attribute, whose access raises `KeyError`). -/
structure XGrid where
  tag : String
  gridType : Option String
deriving DecidableEq, Repr

/-- The sibling loop (time_series.py lines 70-72):
`for g in grids: if g.attrib["GridType"] == "Uniform": self.mesh_grid = g`.
No `break`, so a later match overwrites an earlier one; a missing
`GridType` raises `KeyError` (modelled as the error case). -/
def siblingScan (acc : Option XGrid) : List XGrid → Except String (Option XGrid)
  | [] => .ok acc
  | g :: gs =>
    match g.gridType with
    | none => .error "KeyError: GridType"
    | some t => siblingScan (if t = "Uniform" then some g else acc) gs

/-- The nested fallback loop (time_series.py lines 74-81): first child of
the collection whose `GridType` is `Uniform`, skipping children without
the attribute (`except KeyError: continue`), stopping at the first match
(`break`). -/
def nestedScan : List XGrid → Option XGrid
  | [] => none
  | g :: gs =>
    match g.gridType with
    | none => nestedScan gs
    | some t => if t = "Uniform" then some g else nestedScan gs

/-- Mesh-grid location in `TimeSeriesReader.__init__` (time_series.py
lines 68-85): scan the domain children (the siblings of the collection,
plus the collection itself) for a `Uniform` grid; if none, take the
first `Uniform` grid nested in the collection; if still none, a fatal
error; finally the tag of the chosen element must be `Grid`. -/
def findMeshGrid (siblings collectionChildren : List XGrid) :
    Except String XGrid := do
  let s ← siblingScan none siblings
  let m := match s with
    | some g => some g
    | none => nestedScan collectionChildren
  match m with
  | none => .error "Couldn\x27t find the mesh grid"
  | some g => if g.tag ≠ "Grid" then .error "ReadError" else .ok g

/-- `TimeSeriesWriter` session state relevant to teardown: the data
format and the `h5_file` attribute (`none` = the attribute was never
assigned; accessing it raises `AttributeError`). -/
structure TSWriter where
  data_format : String
  h5_file : Option Nat
deriving DecidableEq, Repr

/-- `TimeSeriesWriter.__init__` (time_series.py lines 242-246): the data
format must be `XML`, `Binary`, or `HDF`, else `WriteError`; `h5_file`
is not assigned. -/
def tsWriterInit (data_format : String) : Except String TSWriter :=
  if data_format = "XML" ∨ data_format = "Binary" ∨ data_format = "HDF" then
    .ok ⟨data_format, none⟩
  else
    .error "WriteError: unknown XDMF data format"

/-- `TimeSeriesWriter.__enter__` (time_series.py lines 269-275): only in
`HDF` mode is `self.h5_file` opened and assigned. -/
def tsWriterEnter (w : TSWriter) : TSWriter :=
  if w.data_format = "HDF" then { w with h5_file := some 0 } else w

/-- `TimeSeriesWriter.__exit__` (time_series.py lines 277-278):
`self.h5_file.close()`, unconditionally.  Returns the list of handles
closed, or the `AttributeError` that accessing an unassigned `h5_file`
raises. -/
def tsWriterExit (w : TSWriter) : Except String (List Nat) :=
  match w.h5_file with
  | some h => .ok [h]
  | none => .error "AttributeError: h5_file"

/-- `TimeSeriesReader.__exit__` (time_series.py lines 90-93): close every
cached store handle (`self.hdf5_files` values), each once, in order.
Returns the list of handles closed. -/
def tsReaderExit (hdf5_files : List (String × Nat)) : List Nat :=
  hdf5_files.map Prod.snd

end Xdmf

namespace Xdmf

/-- A 2-D numpy integer array as `TimeSeriesWriter.cells` sees one cell
block: explicit column count (the arity) plus the rows. -/
structure NArr where
  cols : Nat
  rows : List (List Int)
deriving DecidableEq, Repr

/-- Rectangularity: every row has exactly `cols` entries (what numpy
guarantees for a real `(n, cols)` array). -/
def NArr.WF (a : NArr) : Prop :=
  ∀ r ∈ a.rows, r.length = a.cols

instance (a : NArr) : Decidable a.WF := by
  unfold NArr.WF
  infer_instance

/-- `numpy.prod(c.shape)` for a 2-D array. -/
def prodShape (a : NArr) : Nat :=
  a.rows.length * a.cols

/-- `numpy.insert(a, 0, v, axis=1)`: prepend a constant column. -/
def insertCol (v : Int) (a : NArr) : NArr :=
  ⟨a.cols + 1, a.rows.map (fun r => v :: r)⟩

/-- Membership test `"line" in cells` on the ordered key list. -/
def hasLine (cells : List (String × NArr)) : Bool :=
  (cells.map Prod.fst).contains "line"

/-- `cells["line"] = numpy.insert(cells["line"], 0, 2, axis=1)`
(time_series.py line 410): the in-place dict mutation performed in the
mixed branch when line cells are present; all other entries are left
untouched. -/
def mutateLine (cells : List (String × NArr)) : List (String × NArr) :=
  if hasLine cells then
    cells.map (fun p => if p.1 = "line" then (p.1, insertCol 2 p.2) else p)
  else
    cells

/-- The declared `Dimensions` value of the mixed-topology branch
(time_series.py lines 398-412): `total_num_cell_items + total_num_cells`
computed from the original shapes, plus `len(cells["line"])` when line
cells are present.  (`len` of a 2-D array is its row count, which the
column insertion does not change.) -/
def mixedDeclaredDim (cells : List (String × NArr)) : Nat :=
  let total_num_cells := (cells.map (fun p => p.2.rows.length)).sum
  let total_num_cell_items := (cells.map (fun p => prodShape p.2)).sum
  let dim := total_num_cell_items + total_num_cells
  if hasLine cells then
    dim + (((cells.find? (fun p => p.1 == "line")).map
      (fun p => p.2.rows.length)).getD 0)
  else dim

/-- The flattened mixed stream (time_series.py lines 413-421): after the
line mutation, the rows of each block prefixed with the XDMF type
index, flattened and concatenated in mapping order.  The type-index
table `meshio_type_to_xdmf_index` lives in `xdmf/common.py` (not part of
the sources under verification), so it is a parameter `idx`; no counted
property depends on its values. -/
def mixedStream (idx : String → Int) (cells : List (String × NArr)) :
    List Int :=
  ((mutateLine cells).map (fun p => (insertCol (idx p.1) p.2).rows.flatten)).flatten

/-- `TimeSeriesWriter.cells(self, cells, grid)` (time_series.py lines
373-431), reduced to its observable effects: the cells mapping after the
call (mutated only in the mixed-with-line case) and, when a topology is
emitted, the declared `Dimensions` string together with the flattened
integer payload.  The single-type branch emits the block unchanged with
`Dimensions = "{n} {cols}"`; the empty mapping emits nothing. -/
def cellsMethod (idx : String → Int) (cells : List (String × NArr)) :
    List (String × NArr) × Option (String × List Int) :=
  if cells.length = 1 then
    match cells with
    | [(_, a)] =>
      (cells, some (toString a.rows.length ++ " " ++ toString a.cols, a.rows.flatten))
    | _ => (cells, none)
  else if 1 < cells.length then
    (mutateLine cells,
     some (toString (mixedDeclaredDim cells), mixedStream idx cells))
  else
    (cells, none)

/-- `TimeSeriesWriter.write_points_cells(points, cells)` (time_series.py
lines 280-299): the geometry type check of `self.points` (`XY` for two
columns, `XYZ` for three, otherwise `WriteError("Need 3D points.")`)
followed by `self.cells(cells, grid)`.  Returns the geometry type, the
cells mapping as the caller observes it afterwards, and the emitted
topology payload. -/
def write_points_cells (idx : String → Int) (points : NArr)
    (cells : List (String × NArr)) :
    Except String (String × List (String × NArr) × Option (String × List Int)) :=
  if points.cols = 2 then
    let r := cellsMethod idx cells
    .ok ("XY", r.1, r.2)
  else if points.cols ≠ 3 then
    .error "Need 3D points."
  else
    let r := cellsMethod idx cells
    .ok ("XYZ", r.1, r.2)

/-- One child element of a per-frame `Grid`, as `read_data` classifies
them (time_series.py lines 149-168): a `Time` element with its value, an
`Attribute` with its name, `Center` attribute and child data items
(already located, resolution is the parameter `rdi` below), or anything
else (e.g. the `xi:include`), which is skipped. -/
inductive FrameElem (DI : Type) where
  | time : Int → FrameElem DI
  | attrib : String → String → List DI → FrameElem DI
  | other : FrameElem DI

/-- The classification loop of `TimeSeriesReader.read_data`
(time_series.py lines 149-168), with accumulators `t`, `point_data`,
`cell_data_raw` and the data-item resolver `rdi` standing for
`self._read_data_item` (which touches the heavy-data backends and may
raise). -/
def readDataLoop {DI Arr : Type} (rdi : DI → Except String Arr) :
    List (FrameElem DI) → Option Int → List (String × Arr) →
    List (String × Arr) →
    Except String (Option Int × List (String × Arr) × List (String × Arr))
  | [], t, pd, cd => .ok (t, pd, cd)
  | .time v :: rest, _, pd, cd => readDataLoop rdi rest (some v) pd cd
  | .attrib name center items :: rest, t, pd, cd =>
    match items with
    | [d] => do
      let data ← rdi d
      if center = "Node" then
        readDataLoop rdi rest t (pd ++ [(name, data)]) cd
      else if center ≠ "Cell" then
        .error "ReadError"
      else
        readDataLoop rdi rest t pd (cd ++ [(name, data)])
    | _ => .error "ReadError"
  | .other :: rest, t, pd, cd => readDataLoop rdi rest t pd cd

/-- `TimeSeriesReader.read_data(self, k)` (time_series.py lines 143-176)
on frame `frame` with mesh state `cells` (`self.cells`, `none` until
`read_points_cells` ran).  `cdfr` stands for the external helper
`cell_data_from_raw` from `meshio/_common.py` (not among the sources
under verification).  After the loop: `self.cells is None` is fatal,
then the raw cell data is regrouped, then a missing time value is
fatal. -/
def frameReadData {DI Arr Cells CD : Type} (rdi : DI → Except String Arr)
    (cdfr : Cells → List (String × Arr) → CD) (cells : Option Cells)
    (frame : List (FrameElem DI)) :
    Except String (Int × List (String × Arr) × CD) := do
  let (t, pd, cdraw) ← readDataLoop rdi frame none [] []
  match cells with
  | none => .error "ReadError"
  | some cs =>
    let cell_data := cdfr cs cdraw
    match t with
    | none => .error "ReadError"
    | some tv => .ok (tv, pd, cell_data)

/-- The `Time` values of a frame, in document order. -/
def timesOf {DI : Type} (frame : List (FrameElem DI)) : List Int :=
  frame.filterMap (fun e =>
    match e with
    | .time v => some v
    | _ => none)

/-- A frame element the classification loop can process without error:
attributes carry exactly one data item, resolvable, and a `Node` or
`Cell` center. -/
def GoodElem {DI Arr : Type} (rdi : DI → Except String Arr) :
    FrameElem DI → Prop
  | .time _ => True
  | .other => True
  | .attrib _ center items =>
    (∃ d a, items = [d] ∧ rdi d = .ok a) ∧ (center = "Node" ∨ center = "Cell")

end Xdmf

namespace Gmsh

lemma idxFrom_map_snd {α : Type} (k : Int) (rows : List (List α)) :
    (idxFrom k rows).map Prod.snd = rows := by
  induction rows generalizing k with
  | nil => rfl
  | cons r rs ih => simp [idxFrom, ih]

lemma idxFrom_length {α : Type} (k : Int) (rows : List (List α)) :
    (idxFrom k rows).length = rows.length := by
  induction rows generalizing k with
  | nil => rfl
  | cons r rs ih => simp [idxFrom, ih]

lemma idxFrom_nat_fst {α : Type} (s : Nat) (rows : List (List α)) :
    (idxFrom (s : Int) rows).map Prod.fst = (List.range' s rows.length).map Int.ofNat := by
  induction rows generalizing s with
  | nil => rfl
  | cons r rs ih =>
    have h1 : ((s : Int) + 1) = ((s + 1 : Nat) : Int) := by push_cast; ring
    simp only [idxFrom, List.map_cons, List.length_cons, List.range'_succ]
    rw [h1, ih (s + 1)]
    rfl

lemma headD_singleton_map {α : Type} [Inhabited α] (l : List α) :
    ((l.map (fun x => [x])).map (fun r => r.headD default)) = l := by
  induction l with
  | nil => rfl
  | cons x xs ih =>
    simp only [List.map_cons]
    rw [ih]
    rfl

/-- **C1** (amended).  `_write_data` raises `WriteError` exactly when the
component count (second dimension, or 1 for a 1-D array) is not 1, 3, or
9 — but only after the section marker and the tag preamble have already
been written to the output stream: on every call, including the failing
ones, at least the header bytes have been emitted. -/
theorem gmsh_write_data_component_check (tag name : String) (data : GArr Int)
    (binary : Bool) :
    ((write_data tag name data binary).2.isSome ↔
      ¬(num_components data = 1 ∨ num_components data = 3 ∨ num_components data = 9))
    ∧ (write_data tag name data binary).1 ≠ [] := by
  by_cases h : num_components data = 1 ∨ num_components data = 3 ∨ num_components data = 9
  · have h2 : (write_data tag name data binary).2 = none := by
      simp only [write_data, if_pos h]
    have h1 : (write_data tag name data binary).1
        = Chunk.line ("$" ++ tag ++ "\n") :: (write_data tag name data binary).1.tail := by
      simp only [write_data, if_pos h]
      rfl
    refine ⟨?_, ?_⟩
    · rw [h2]
      exact ⟨fun hc => absurd hc (by simp), fun hc => absurd h hc⟩
    · rw [h1]
      exact List.cons_ne_nil _ _
  · have h2 : (write_data tag name data binary).2
        = some "Gmsh only permits 1, 3, or 9 components per data field." := by
      simp only [write_data, if_neg h]
    have h1 : (write_data tag name data binary).1
        = Chunk.line ("$" ++ tag ++ "\n") :: (write_data tag name data binary).1.tail := by
      simp only [write_data, if_neg h]
      rfl
    refine ⟨?_, ?_⟩
    · rw [h2]
      exact ⟨fun _ => h, fun _ => rfl⟩
    · rw [h1]
      exact List.cons_ne_nil _ _

/-- **C1** (counterexample to the claim as stated).  Writing a
2-component field does raise `WriteError`, but the output is NOT left
untouched: seven header chunks have already been written when the error
is raised, so "before any bytes are emitted" is false. -/
theorem gmsh_write_data_emits_before_error_cex :
    (write_data "NodeData" "f" (GArr.mat 2 [[(1 : Int), 2]]) false).2
      = some "Gmsh only permits 1, 3, or 9 components per data field."
    ∧ (write_data "NodeData" "f" (GArr.mat 2 [[(1 : Int), 2]]) false).1.length = 7
    ∧ (write_data "NodeData" "f" (GArr.mat 2 [[(1 : Int), 2]]) false).1 ≠ [] := by
  refine ⟨rfl, rfl, ?_⟩
  decide

/-- **C2** (counterexample to the claim as stated).  For the field-data
entry `"a" ↦ (id 5, dimension 2)` the emitted line is `2 5 "a"` —
dimension first, then id — not `5 2 "a"` as the format
`id dimension "name"` stated in the claim would have it. -/
theorem gmsh_physical_names_format_cex :
    (write_physical_names [("a", [PVal.intLike 5, PVal.intLike 2])]).1
      = ["$PhysicalNames\n", "1\n", "2 5 \"a\"\n", "$EndPhysicalNames\n"]
    ∧ ("2 5 \"a\"\n" : String) ≠ "5 2 \"a\"\n" := by
  refine ⟨rfl, ?_⟩
  decide

/-- **C2** (amended).  `_write_physical_names` emits the coercible
entries sorted by `(dimension, id)` ascending, each line formatted as
`dimension id "name"` (via `physLine`); every entry whose value does not
unpack into two integer-coercible items is skipped with one non-fatal
warning; nothing at all is written when no entry is coercible. -/
theorem gmsh_physical_names_write (field_data : List (String × List PVal)) :
    ((write_physical_names field_data).2
        + (field_data.filterMap (fun p => physEntry p.1 p.2)).length
      = field_data.length)
    ∧ (field_data.filterMap (fun p => physEntry p.1 p.2) ≠ [] →
        ∃ entries : List (Int × Int × String),
          entries.Perm (field_data.filterMap (fun p => physEntry p.1 p.2))
          ∧ List.Sorted entryLe entries
          ∧ (write_physical_names field_data).1
              = "$PhysicalNames\n"
                :: (toString (field_data.filterMap (fun p => physEntry p.1 p.2)).length ++ "\n")
                :: (entries.map physLine ++ ["$EndPhysicalNames\n"]))
    ∧ (field_data.filterMap (fun p => physEntry p.1 p.2) = [] →
        (write_physical_names field_data).1 = []) := by
  refine ⟨?_, ?_, ?_⟩
  · have hle := List.length_filterMap_le (fun p : String × List PVal => physEntry p.1 p.2) field_data
    simp only [write_physical_names]
    omega
  · intro hne
    refine ⟨List.insertionSort entryLe (field_data.filterMap (fun p => physEntry p.1 p.2)),
      List.perm_insertionSort _ _, List.sorted_insertionSort _ _, ?_⟩
    have hlen : (List.insertionSort entryLe (field_data.filterMap (fun p => physEntry p.1 p.2))).length
        = (field_data.filterMap (fun p => physEntry p.1 p.2)).length :=
      (List.perm_insertionSort _ _).length_eq
    have hne' : ¬(List.insertionSort entryLe (field_data.filterMap (fun p => physEntry p.1 p.2))).isEmpty = true := by
      intro hemp
      have h0 : List.insertionSort entryLe (field_data.filterMap (fun p => physEntry p.1 p.2)) = [] := by
        cases he : List.insertionSort entryLe (field_data.filterMap (fun p => physEntry p.1 p.2)) with
        | nil => rfl
        | cons a t =>
          rw [he] at hemp
          simp at hemp
      have hperm := List.perm_insertionSort entryLe (field_data.filterMap (fun p => physEntry p.1 p.2))
      rw [h0] at hperm
      exact hne hperm.nil_eq.symm
    simp only [write_physical_names, if_neg hne', hlen]
    simp
  · intro hnil
    simp [write_physical_names, hnil, List.insertionSort]

/-- **C3**.  Gmsh version dispatch: exact string match first, then the
text before the first `.`; `"4"` resolves to the same reader module as
`"4.0"` (namely `_gmsh40`); an unmatched version such as `"9.9"` raises
the fatal error whose message names the requested version and the sorted
list of available versions. -/
theorem gmsh_version_dispatch :
    (readerFor "4" = readerFor "4.0" ∧ readerFor "4" = .ok .gmsh40)
    ∧ (readerFor "9.9" = .error (dispatchMsg "9.9")
        ∧ dispatchMsg "9.9"
            = "Need mesh format in [\x272\x27, \x274\x27, \x274.0\x27, \x274.1\x27] (got 9.9)"
        ∧ List.Sorted (fun a b => strLe a b = true) sortedVersions
        ∧ sortedVersions.Perm (readersList.map Prod.fst))
    ∧ (∀ v m, lookupReader v = some m → readerFor v = .ok m)
    ∧ (∀ v m, lookupReader v = none → lookupReader (headBeforeDot v) = some m →
        readerFor v = .ok m)
    ∧ (∀ v, lookupReader v = none → lookupReader (headBeforeDot v) = none →
        readerFor v = .error (dispatchMsg v)) := by
  refine ⟨by decide, by decide, ?_, ?_, ?_⟩
  · intro v m h
    simp [readerFor, h]
  · intro v m h1 h2
    simp [readerFor, h1, h2]
  · intro v h1 h2
    simp [readerFor, h1, h2]

/-- Witness for C3: the dispatch theorem applied at the concrete exactly
matching version `"2"`. -/
theorem gmsh_version_dispatch_witness : readerFor "2" = .ok .gmsh22 :=
  gmsh_version_dispatch.2.2.1 "2" .gmsh22 (by decide)

end Gmsh

namespace Gmsh

/-- Witness for C2: a field-data mapping whose only entry is not
coercible produces no output at all (and hence no fatal error). -/
theorem gmsh_physical_names_write_witness :
    (write_physical_names [("x", [PVal.notIntLike])]).1 = [] :=
  (gmsh_physical_names_write [("x", [PVal.notIntLike])]).2.2 (by decide)

/-- **C4**.  The binary branch of `_read_data` succeeds exactly when the
decoded index fields are the ascending sequence `1..N`, and raises the
fatal error on any gap or reorder; the ASCII branch performs no index
check at all: its result depends only on the rows with the leading index
column dropped. -/
theorem gmsh_read_data_index_check :
    (∀ (C : Nat) (records : List (Int × List Int)),
      ((read_data_binary C records).isOk = true ↔
        records.map Prod.fst = (List.range' 1 records.length).map Int.ofNat))
    ∧ (∀ (C : Nat) (records : List (Int × List Int)),
        records.map Prod.fst ≠ (List.range' 1 records.length).map Int.ofNat →
        read_data_binary C records = .error "ReadError")
    ∧ (∀ (C : Nat) (dat dat' : List (List Int)),
        dat.map List.tail = dat'.map List.tail →
        read_data_ascii C dat = read_data_ascii C dat') := by
  refine ⟨?_, ?_, ?_⟩
  · intro C records
    by_cases h : records.map Prod.fst = (List.range' 1 records.length).map Int.ofNat
    · simp [read_data_binary, h, Except.isOk, Except.toBool]
    · simp [read_data_binary, h, Except.isOk, Except.toBool]
  · intro C records h
    simp [read_data_binary, h]
  · intro C dat dat' h
    unfold read_data_ascii
    rw [h]

/-- Witness for C4: a binary section of two records whose second index
is corrupted (3 instead of 2) raises the fatal read error. -/
theorem gmsh_read_data_index_check_witness :
    read_data_binary 1 [((1 : Int), [(5 : Int)]), ((3 : Int), [(6 : Int)])]
      = .error "ReadError" :=
  gmsh_read_data_index_check.2.1 1 [((1 : Int), [(5 : Int)]), ((3 : Int), [(6 : Int)])]
    (by decide)

lemma write_data_congr {α : Type} [Inhabited α] (tag name : String) (binary : Bool)
    (d1 d2 : GArr α) (h1 : num_components d1 = num_components d2)
    (h2 : cutTrailingDim d1 = cutTrailingDim d2) :
    write_data tag name d1 binary = write_data tag name d2 binary := by
  unfold write_data
  rw [h1, h2]

/-- **C6**.  One-component fields collapse their shape: writing an
`(N,1)` array emits exactly the same section as writing the flat `(N,)`
array; the emitted section declares 1 component (chunk 7 is the line
`"1"`); reading the written records back (binary path, and ASCII path
with an arbitrary index column) yields the flat value list; any ASCII
1-component section reads to a flat array as long as its row list; and
re-writing the read-back array reproduces the identical section. -/
theorem gmsh_one_component_roundtrip (tag name : String) (binary : Bool)
    (xs : List Int) :
    (write_data tag name (GArr.mat 1 (xs.map (fun x => [x]))) binary
      = write_data tag name (GArr.flat xs) binary)
    ∧ read_data_binary 1 (write_records (GArr.flat xs)) = .ok (GArr.flat xs)
    ∧ (∀ ixcol : Int → Int,
        read_data_ascii 1
          ((write_records (GArr.flat xs)).map (fun r => ixcol r.1 :: r.2))
          = GArr.flat xs)
    ∧ (write_data tag name (GArr.flat xs) binary).1.get? 7
        = some (.line "1\n")
    ∧ (∀ dat : List (List Int), ∃ l : List Int,
        read_data_ascii 1 dat = GArr.flat l ∧ l.length = dat.length)
    ∧ write_data tag name
        (((read_data_binary 1 (write_records (GArr.flat xs))).toOption).getD
          (GArr.flat [])) binary
      = write_data tag name (GArr.flat xs) binary := by
  have hone : ∀ rows : List (List Int),
      postShape 1 rows = GArr.flat (rows.map (fun r => r.headD default)) :=
    fun _ => rfl
  have hcut : cutTrailingDim (GArr.mat 1 (xs.map (fun x => [x]))) = GArr.flat xs := by
    have h0 : cutTrailingDim (GArr.mat 1 (xs.map (fun x => [x])))
        = GArr.flat ((xs.map (fun x => [x])).map (fun r => r.headD default)) := rfl
    rw [h0, headD_singleton_map]
  have hwr : write_records (GArr.flat xs) = idxFrom 1 (xs.map (fun x => [x])) := rfl
  have hfst : (write_records (GArr.flat xs)).map Prod.fst
      = (List.range' 1 (write_records (GArr.flat xs)).length).map Int.ofNat := by
    rw [hwr, idxFrom_length]
    have h1 := idxFrom_nat_fst (α := Int) 1 (xs.map (fun x => [x]))
    simpa using h1
  have hrec : read_data_binary 1 (write_records (GArr.flat xs)) = .ok (GArr.flat xs) := by
    have h0 : read_data_binary 1 (write_records (GArr.flat xs))
        = .ok (postShape 1 ((write_records (GArr.flat xs)).map Prod.snd)) := by
      unfold read_data_binary
      rw [if_pos hfst]
    rw [h0, hwr, idxFrom_map_snd, hone, headD_singleton_map]
  refine ⟨?_, hrec, ?_, ?_, ?_, ?_⟩
  · exact write_data_congr tag name binary _ _ rfl hcut
  · intro ixcol
    have h0 : read_data_ascii 1 ((write_records (GArr.flat xs)).map (fun r => ixcol r.1 :: r.2))
        = postShape 1
            (((write_records (GArr.flat xs)).map (fun r => ixcol r.1 :: r.2)).map
              (fun row => row.tail)) := rfl
    rw [h0, List.map_map]
    have hfun : ((fun row : List Int => row.tail) ∘ (fun r : Int × List Int => ixcol r.1 :: r.2))
        = (Prod.snd : Int × List Int → List Int) := by
      funext r
      rfl
    rw [hfun, hwr, idxFrom_map_snd, hone, headD_singleton_map]
  · have h : (write_data tag name (GArr.flat xs) binary).1.get? 7
        = some (.line (toString (1 : Nat) ++ "\n")) := rfl
    rw [h]
    have hs : (toString (1 : Nat) ++ "\n" : String) = "1\n" := by decide
    rw [hs]
  · intro dat
    refine ⟨(dat.map (fun row => row.tail)).map (fun r => r.headD default), ?_, ?_⟩
    · rfl
    · simp
  · rw [hrec]
    rfl

end Gmsh

namespace Xdmf

lemma siblingScan_no_uniform (grids : List XGrid)
    (h1 : ∀ g ∈ grids, (g.gridType).isSome)
    (h2 : ∀ g ∈ grids, g.gridType ≠ some "Uniform") :
    ∀ acc, siblingScan acc grids = .ok acc := by
  induction grids with
  | nil => intro acc; rfl
  | cons g gs ih =>
    intro acc
    obtain ⟨t, ht⟩ := Option.isSome_iff_exists.mp (h1 g (by simp))
    have hneq : t ≠ "Uniform" := by
      intro h
      exact h2 g (by simp) (by rw [ht, h])
    simp only [siblingScan, ht, if_neg hneq]
    exact ih (fun x hx => h1 x (by simp [hx])) (fun x hx => h2 x (by simp [hx])) acc

lemma siblingScan_with_uniform (grids : List XGrid)
    (h1 : ∀ g ∈ grids, (g.gridType).isSome)
    (h2 : ∃ g ∈ grids, g.gridType = some "Uniform") :
    ∃ g, g ∈ grids ∧ g.gridType = some "Uniform"
      ∧ ∀ acc, siblingScan acc grids = .ok (some g) := by
  induction grids with
  | nil =>
    obtain ⟨g, hg, _⟩ := h2
    exact absurd hg (List.not_mem_nil g)
  | cons g gs ih =>
    obtain ⟨t, ht⟩ := Option.isSome_iff_exists.mp (h1 g (by simp))
    by_cases hu : ∃ g' ∈ gs, g'.gridType = some "Uniform"
    · obtain ⟨g', hmem, hgu, hacc⟩ := ih (fun x hx => h1 x (by simp [hx])) hu
      refine ⟨g', by simp [hmem], hgu, ?_⟩
      intro acc
      by_cases hts : t = "Uniform"
      · simp only [siblingScan, ht, if_pos hts]
        exact hacc (some g)
      · simp only [siblingScan, ht, if_neg hts]
        exact hacc acc
    · have hgu : g.gridType = some "Uniform" := by
        obtain ⟨g0, hg0mem, hg0⟩ := h2
        rcases List.mem_cons.mp hg0mem with rfl | hmem
        · exact hg0
        · exact absurd ⟨g0, hmem, hg0⟩ hu
      refine ⟨g, by simp, hgu, ?_⟩
      intro acc
      have hts : t = "Uniform" := by
        rw [ht] at hgu
        exact Option.some.inj hgu
      simp only [siblingScan, ht, if_pos hts]
      push_neg at hu
      exact siblingScan_no_uniform gs (fun x hx => h1 x (by simp [hx])) hu (some g)

lemma nestedScan_none (l : List XGrid)
    (h : ∀ g ∈ l, g.gridType ≠ some "Uniform") :
    nestedScan l = none := by
  induction l with
  | nil => rfl
  | cons p ps ih =>
    cases hpt : p.gridType with
    | none =>
      simp only [nestedScan, hpt]
      exact ih (fun x hx => h x (by simp [hx]))
    | some t =>
      have hneq : t ≠ "Uniform" := by
        intro he
        exact h p (by simp) (by rw [hpt, he])
      simp only [nestedScan, hpt, if_neg hneq]
      exact ih (fun x hx => h x (by simp [hx]))

lemma nestedScan_first (pre : List XGrid) (g : XGrid) (post : List XGrid)
    (hg : g.gridType = some "Uniform")
    (hpre : ∀ x ∈ pre, x.gridType ≠ some "Uniform") :
    nestedScan (pre ++ g :: post) = some g := by
  induction pre with
  | nil =>
    show nestedScan (g :: post) = some g
    simp [nestedScan, hg]
  | cons p ps ih =>
    cases hpt : p.gridType with
    | none =>
      simp only [List.cons_append, nestedScan, hpt]
      exact ih (fun x hx => hpre x (by simp [hx]))
    | some t =>
      have hneq : t ≠ "Uniform" := by
        intro he
        exact hpre p (by simp) (by rw [hpt, he])
      simp only [List.cons_append, nestedScan, hpt, if_neg hneq]
      exact ih (fun x hx => hpre x (by simp [hx]))

/-- **C5**.  Mesh-grid location in the XDMF time-series reader: a
`Uniform` grid among the domain children (siblings of the collection)
always wins — with no diagnostic — even when the collection also nests
one; only when no sibling is uniform is the first nested uniform grid
taken (elements without a `GridType` attribute are skipped); when
neither exists the fatal error is raised. -/
theorem xdmf_mesh_grid_location (siblings nested : List XGrid)
    (hs : ∀ g ∈ siblings, g.tag = "Grid" ∧ (g.gridType).isSome)
    (hn : ∀ g ∈ nested, g.tag = "Grid") :
    ((∃ g ∈ siblings, g.gridType = some "Uniform") →
      ∃ g, g ∈ siblings ∧ g.gridType = some "Uniform"
        ∧ findMeshGrid siblings nested = .ok g)
    ∧ ((∀ g ∈ siblings, g.gridType ≠ some "Uniform") →
        ∀ (pre : List XGrid) (g : XGrid) (post : List XGrid),
          nested = pre ++ g :: post → g.gridType = some "Uniform" →
          (∀ x ∈ pre, x.gridType ≠ some "Uniform") →
          findMeshGrid siblings nested = .ok g)
    ∧ ((∀ g ∈ siblings, g.gridType ≠ some "Uniform") →
        (∀ g ∈ nested, g.gridType ≠ some "Uniform") →
        findMeshGrid siblings nested = .error "Couldn\x27t find the mesh grid") := by
  refine ⟨?_, ?_, ?_⟩
  · intro hex
    obtain ⟨g, hmem, hgu, hacc⟩ :=
      siblingScan_with_uniform siblings (fun x hx => (hs x hx).2) hex
    have htag : g.tag = "Grid" := (hs g hmem).1
    have h1 : findMeshGrid siblings nested
        = (if g.tag ≠ "Grid" then .error "ReadError" else .ok g) := by
      unfold findMeshGrid
      rw [hacc none]
      rfl
    rw [h1, if_neg (not_not_intro htag)]
    exact ⟨g, hmem, hgu, rfl⟩
  · intro hnone pre g post hdec hgu hpre
    subst hdec
    have htag : g.tag = "Grid" := hn g (by simp)
    have hscan := siblingScan_no_uniform siblings (fun x hx => (hs x hx).2) hnone none
    have h1 : findMeshGrid siblings (pre ++ g :: post)
        = (if g.tag ≠ "Grid" then .error "ReadError" else .ok g) := by
      unfold findMeshGrid
      rw [hscan]
      show (match nestedScan (pre ++ g :: post) with
        | none => (.error "Couldn\x27t find the mesh grid" : Except String XGrid)
        | some g => if g.tag ≠ "Grid" then .error "ReadError" else .ok g) = _
      rw [nestedScan_first pre g post hgu hpre]
    rw [h1, if_neg (not_not_intro htag)]
  · intro hnone hnested
    have hscan := siblingScan_no_uniform siblings (fun x hx => (hs x hx).2) hnone none
    unfold findMeshGrid
    rw [hscan]
    show (match nestedScan nested with
      | none => (.error "Couldn\x27t find the mesh grid" : Except String XGrid)
      | some g => if g.tag ≠ "Grid" then .error "ReadError" else .ok g) = _
    rw [nestedScan_none nested hnested]

/-- Witness for C5: a document whose domain holds only the collection
grid and whose collection nests no uniform grid fails with the fatal
error. -/
theorem xdmf_mesh_grid_location_witness :
    findMeshGrid [⟨"Grid", some "Collection"⟩] []
      = .error "Couldn\x27t find the mesh grid" :=
  (xdmf_mesh_grid_location [⟨"Grid", some "Collection"⟩] []
    (by decide) (by decide)).2.2 (by decide) (by decide)

/-- **C7** (the code contradicts the claim).  Teardown of a
`TimeSeriesWriter` session is NOT safe for every data format: `__exit__`
unconditionally closes `self.h5_file`, which `__enter__` only assigns in
`HDF` mode, so an `XML`- or `Binary`-format session raises
`AttributeError` at teardown instead of succeeding; in `HDF` mode the
single opened store handle is closed exactly once, and the reader closes
each cached handle exactly once. -/
theorem xdmf_writer_teardown_bug :
    tsWriterInit "XML" = .ok ⟨"XML", none⟩
    ∧ (tsWriterExit (tsWriterEnter ⟨"XML", none⟩)).isOk = false
    ∧ tsWriterExit (tsWriterEnter ⟨"Binary", none⟩) = .error "AttributeError: h5_file"
    ∧ tsWriterExit (tsWriterEnter ⟨"HDF", none⟩) = .ok [0]
    ∧ tsReaderExit [("m.h5", 3), ("n.h5", 4)] = [3, 4] := by
  decide

end Xdmf

namespace Xdmf

lemma sum_const_of_all {β : Type} (l : List β) (f : β → Nat) (c : Nat)
    (h : ∀ x ∈ l, f x = c) : (l.map f).sum = l.length * c := by
  induction l with
  | nil => simp
  | cons x xs ih =>
    have hx := h x (by simp)
    have ht := ih (fun y hy => h y (by simp [hy]))
    simp only [List.map_cons, List.sum_cons, List.length_cons]
    rw [hx, ht]
    ring

lemma insertCol_rows_length (v : Int) (a : NArr) :
    (insertCol v a).rows.length = a.rows.length := by
  simp [insertCol]

lemma insertCol_WF (v : Int) (a : NArr) (h : a.WF) : (insertCol v a).WF := by
  intro r hr
  obtain ⟨r0, hr0, rfl⟩ := List.mem_map.mp hr
  simp [insertCol, h r0 hr0]

lemma insertCol_flatten_length (v : Int) (a : NArr) (h : a.WF) :
    ((insertCol v a).rows.flatten).length = a.rows.length * (a.cols + 1) := by
  show ((a.rows.map (fun r => v :: r)).flatten).length = a.rows.length * (a.cols + 1)
  rw [List.length_flatten, List.map_map]
  exact sum_const_of_all a.rows _ (a.cols + 1) (fun r hr => by simp [h r hr])

lemma map_id_of_eq {β : Type} (l : List β) (f : β → β) (h : ∀ x ∈ l, f x = x) :
    l.map f = l := by
  induction l with
  | nil => rfl
  | cons x xs ih => simp [h x (by simp), ih (fun y hy => h y (by simp [hy]))]

lemma mutateLine_map (cells : List (String × NArr)) :
    mutateLine cells
      = cells.map (fun p => if p.1 = "line" then (p.1, insertCol 2 p.2) else p) := by
  unfold mutateLine
  by_cases h : hasLine cells = true
  · rw [if_pos h]
  · rw [if_neg h]
    symm
    apply map_id_of_eq
    intro p hp
    rw [if_neg]
    intro he
    apply h
    show ((cells.map Prod.fst).contains "line") = true
    have : "line" ∈ cells.map Prod.fst := List.mem_map.mpr ⟨p, hp, he.symm ▸ rfl⟩
    exact List.elem_iff.mpr this

lemma split_line_sum (cells : List (String × NArr)) (f e : (String × NArr) → Nat) :
    (cells.map (fun p => if p.1 = "line" then f p + e p else f p)).sum
      = (cells.map f).sum
        + ((cells.filter (fun p => p.1 == "line")).map e).sum := by
  induction cells with
  | nil => simp
  | cons p ps ih =>
    by_cases h : p.1 = "line"
    · simp only [List.map_cons, List.sum_cons, if_pos h, List.filter_cons,
        beq_iff_eq, if_pos h]
      rw [ih]
      ring
    · have hb : (p.1 == "line") = false := beq_eq_false_iff_ne.mpr h
      simp only [List.map_cons, List.sum_cons, if_neg h, List.filter_cons, hb]
      rw [ih]
      simp only [Bool.false_eq_true, if_false]
      ring

lemma line_extra_eq (cells : List (String × NArr))
    (h3 : (cells.map Prod.fst).Nodup) :
    (if hasLine cells then
        (((cells.find? (fun p => p.1 == "line")).map
          (fun p => p.2.rows.length)).getD 0)
      else 0)
      = ((cells.filter (fun p => p.1 == "line")).map
          (fun p => p.2.rows.length)).sum := by
  induction cells with
  | nil => rfl
  | cons p ps ih =>
    by_cases h : p.1 = "line"
    · have hb : (p.1 == "line") = true := beq_iff_eq.mpr h
      have hline : hasLine (p :: ps) = true := by
        show ((p.1 :: ps.map Prod.fst).contains "line") = true
        exact List.elem_iff.mpr (by simp [h])
      have hnot : "line" ∉ ps.map Prod.fst := by
        intro hmem
        have := (List.nodup_cons.mp h3).1
        rw [h] at this
        exact this hmem
      have hfilter : ps.filter (fun p => p.1 == "line") = [] := by
        rw [List.filter_eq_nil_iff]
        intro q hq hbq
        exact hnot (List.mem_map.mpr ⟨q, hq, beq_iff_eq.mp hbq⟩)
      rw [if_pos hline]
      simp only [List.find?_cons, hb, List.filter_cons, hfilter]
      simp
    · have hb : (p.1 == "line") = false := beq_eq_false_iff_ne.mpr h
      have hline : hasLine (p :: ps) = hasLine ps := by
        show ((p.1 :: ps.map Prod.fst).contains "line") = ((ps.map Prod.fst).contains "line")
        simp [List.contains_cons, Ne.symm h]
      have ihp := ih (List.nodup_cons.mp h3).2
      rw [hline] at *
      simp only [List.find?_cons, hb, List.filter_cons]
      simp only [Bool.false_eq_true, if_false]
      exact ihp

/-- **C8**.  In the mixed-topology branch the declared `Dimensions` value
equals the sum over all cells of (arity + 1), plus one extra per line
cell for the prepended arity, and it equals the number of integers
actually emitted in the flattened mixed stream — for any type-index
table. -/
theorem xdmf_mixed_dimension_arithmetic (idx : String → Int)
    (cells : List (String × NArr)) (h1 : 1 < cells.length)
    (h2 : ∀ p ∈ cells, p.2.WF) (h3 : (cells.map Prod.fst).Nodup) :
    mixedDeclaredDim cells
      = (cells.map (fun p => p.2.rows.length * (p.2.cols + 1))).sum
        + ((cells.filter (fun p => p.1 == "line")).map
            (fun p => p.2.rows.length)).sum
    ∧ mixedDeclaredDim cells = (mixedStream idx cells).length := by
  have hA : mixedDeclaredDim cells
      = (cells.map (fun p => p.2.rows.length * (p.2.cols + 1))).sum
        + ((cells.filter (fun p => p.1 == "line")).map
            (fun p => p.2.rows.length)).sum := by
    have hd : mixedDeclaredDim cells
        = ((cells.map (fun p => prodShape p.2)).sum
            + (cells.map (fun p => p.2.rows.length)).sum)
          + (if hasLine cells then
              (((cells.find? (fun p => p.1 == "line")).map
                (fun p => p.2.rows.length)).getD 0)
            else 0) := by
      simp only [mixedDeclaredDim]
      by_cases h : hasLine cells = true
      · rw [if_pos h, if_pos h]
      · rw [if_neg h, if_neg h]
        omega
    rw [hd, line_extra_eq cells h3]
    have hfun : (fun p : String × NArr => prodShape p.2 + p.2.rows.length)
        = (fun p : String × NArr => p.2.rows.length * (p.2.cols + 1)) := by
      funext p
      unfold prodShape
      ring
    rw [← List.sum_map_add, hfun]
  refine ⟨hA, ?_⟩
  have hlen : (mixedStream idx cells).length
      = (cells.map (fun p => if p.1 = "line"
          then p.2.rows.length * (p.2.cols + 1) + p.2.rows.length
          else p.2.rows.length * (p.2.cols + 1))).sum := by
    unfold mixedStream
    rw [List.length_flatten, List.map_map, mutateLine_map, List.map_map]
    apply congrArg List.sum
    apply List.map_congr_left
    intro p hp
    by_cases h : p.1 = "line"
    · have hwf := insertCol_WF 2 p.2 (h2 p hp)
      simp only [Function.comp, if_pos h]
      rw [insertCol_flatten_length _ _ hwf, insertCol_rows_length]
      show p.2.rows.length * (p.2.cols + 1 + 1)
          = p.2.rows.length * (p.2.cols + 1) + p.2.rows.length
      ring
    · simp only [Function.comp, if_neg h]
      exact insertCol_flatten_length _ _ (h2 p hp)
  rw [hA, hlen, split_line_sum]

/-- Witness for C8: the two-type mapping `line` (2 cells) + `triangle`
(1 cell) declares dimension 12, exactly the emitted stream length. -/
theorem xdmf_mixed_dimension_arithmetic_witness :
    mixedDeclaredDim
        [("line", (⟨2, [[0, 1], [1, 2]]⟩ : NArr)), ("triangle", ⟨3, [[0, 1, 2]]⟩)]
      = (mixedStream (fun _ => 9)
          [("line", (⟨2, [[0, 1], [1, 2]]⟩ : NArr)), ("triangle", ⟨3, [[0, 1, 2]]⟩)]).length :=
  (xdmf_mixed_dimension_arithmetic (fun _ => 9)
    [("line", (⟨2, [[0, 1], [1, 2]]⟩ : NArr)), ("triangle", ⟨3, [[0, 1, 2]]⟩)]
    (by decide) (by decide) (by decide)).2

end Xdmf

namespace Xdmf

lemma timesOf_time_cons {DI : Type} (v : Int) (rest : List (FrameElem DI)) :
    timesOf (.time v :: rest) = v :: timesOf rest := rfl

lemma timesOf_attrib_cons {DI : Type} (n c : String) (items : List DI)
    (rest : List (FrameElem DI)) :
    timesOf (.attrib n c items :: rest) = timesOf rest := rfl

lemma timesOf_other_cons {DI : Type} (rest : List (FrameElem DI)) :
    timesOf (.other :: rest) = timesOf rest := rfl

lemma readDataLoop_good {DI Arr : Type} (rdi : DI → Except String Arr)
    (frame : List (FrameElem DI)) (hgood : ∀ e ∈ frame, GoodElem rdi e) :
    ∀ (t0 : Option Int) (pd cd : List (String × Arr)),
    ∃ pd' cd', readDataLoop rdi frame t0 pd cd
      = .ok ((timesOf frame).foldl (fun _ v => some v) t0, pd', cd') := by
  induction frame with
  | nil =>
    intro t0 pd cd
    exact ⟨pd, cd, rfl⟩
  | cons e rest ih =>
    intro t0 pd cd
    have ihr := ih (fun x hx => hgood x (by simp [hx]))
    cases e with
    | time v =>
      rw [timesOf_time_cons, List.foldl_cons]
      exact ihr (some v) pd cd
    | attrib name center items =>
      obtain ⟨⟨d, a, hitems, hrd⟩, hcenter⟩ :=
        hgood (FrameElem.attrib name center items) (by simp)
      subst hitems
      rw [timesOf_attrib_cons]
      rcases hcenter with hc | hc
      · subst hc
        have hstep : readDataLoop rdi (.attrib name "Node" [d] :: rest) t0 pd cd
            = readDataLoop rdi rest t0 (pd ++ [(name, a)]) cd := by
          simp only [readDataLoop, hrd]
          rfl
        rw [hstep]
        exact ihr t0 (pd ++ [(name, a)]) cd
      · subst hc
        have hstep : readDataLoop rdi (.attrib name "Cell" [d] :: rest) t0 pd cd
            = readDataLoop rdi rest t0 pd (cd ++ [(name, a)]) := by
          simp only [readDataLoop, hrd]
          rfl
        rw [hstep]
        exact ihr t0 pd (cd ++ [(name, a)])
    | other =>
      rw [timesOf_other_cons]
      have hstep : readDataLoop rdi (.other :: rest) t0 pd cd
          = readDataLoop rdi rest t0 pd cd := rfl
      rw [hstep]
      exact ihr t0 pd cd

/-- **C9**.  `read_data` before `read_points_cells` (mesh state still
`None`) always fails fatally, whatever the frame holds; once the mesh
state is populated, a well-formed frame with exactly one `Time` element
yields the value of that element, and a well-formed frame with no `Time`
element is a fatal error. -/
theorem xdmf_read_data_ordering {DI Arr Cells CD : Type}
    (rdi : DI → Except String Arr)
    (cdfr : Cells → List (String × Arr) → CD) :
    (∀ frame : List (FrameElem DI),
      ∃ e, frameReadData rdi cdfr (none : Option Cells) frame = .error e)
    ∧ (∀ (cs : Cells) (frame : List (FrameElem DI)) (t : Int),
        (∀ e ∈ frame, GoodElem rdi e) → timesOf frame = [t] →
        ∃ pd cd, frameReadData rdi cdfr (some cs) frame = .ok (t, pd, cd))
    ∧ (∀ (cs : Cells) (frame : List (FrameElem DI)),
        (∀ e ∈ frame, GoodElem rdi e) → timesOf frame = [] →
        frameReadData rdi cdfr (some cs) frame = .error "ReadError") := by
  refine ⟨?_, ?_, ?_⟩
  · intro frame
    cases h : readDataLoop rdi frame (none : Option Int) [] [] with
    | error e =>
      refine ⟨e, ?_⟩
      unfold frameReadData
      rw [h]
      rfl
    | ok v =>
      obtain ⟨t, pd, cd⟩ := v
      refine ⟨"ReadError", ?_⟩
      unfold frameReadData
      rw [h]
      rfl
  · intro cs frame t hgood ht
    obtain ⟨pd', cd', hloop⟩ := readDataLoop_good rdi frame hgood none [] []
    rw [ht] at hloop
    simp only [List.foldl_cons, List.foldl_nil] at hloop
    refine ⟨pd', cdfr cs cd', ?_⟩
    unfold frameReadData
    rw [hloop]
    rfl
  · intro cs frame hgood ht
    obtain ⟨pd', cd', hloop⟩ := readDataLoop_good rdi frame hgood none [] []
    rw [ht] at hloop
    simp only [List.foldl_nil] at hloop
    unfold frameReadData
    rw [hloop]
    rfl

/-- Witness for C9: with the mesh state populated, an empty frame — one
with no `Time` element — fails with the fatal read error. -/
theorem xdmf_read_data_ordering_witness :
    frameReadData (fun _ : Unit => Except.ok ())
      (fun (_ : Unit) (_ : List (String × Unit)) => ()) (some ())
      ([] : List (FrameElem Unit)) = .error "ReadError" :=
  (xdmf_read_data_ordering (fun _ : Unit => Except.ok ())
    (fun (_ : Unit) (_ : List (String × Unit)) => ())).2.2 () []
    (fun e he => absurd he (List.not_mem_nil e)) rfl

end Xdmf

namespace Xdmf

lemma map_eq_self_forall {β : Type} (l : List β) (f : β → β) (h : l.map f = l) :
    ∀ x ∈ l, f x = x := by
  induction l with
  | nil =>
    intro x hx
    exact absurd hx (List.not_mem_nil x)
  | cons a as ih =>
    simp only [List.map_cons, List.cons.injEq] at h
    obtain ⟨h1, h2⟩ := h
    intro x hx
    rcases List.mem_cons.mp hx with rfl | hmem
    · exact h1
    · exact ih h2 x hmem

/-- **C10**.  `write_points_cells` mutates the caller's cells mapping
exactly in the mixed-with-line case: there the `"line"` entry is
replaced by the array with a prepended constant-2 column (so the
caller's mapping has observably changed), while a single-type mapping or
a mixed mapping without line cells is returned to the caller exactly as
it was. -/
theorem xdmf_write_points_cells_mutation (idx : String → Int) (points : NArr)
    (cells : List (String × NArr)) (hp : points.cols = 2 ∨ points.cols = 3) :
    (write_points_cells idx points cells).isOk = true
    ∧ ∀ (geo : String) (newCells : List (String × NArr))
        (payload : Option (String × List Int)),
        write_points_cells idx points cells = .ok (geo, newCells, payload) →
        ((1 < cells.length → hasLine cells = true →
            newCells = cells.map
              (fun p => if p.1 = "line" then (p.1, insertCol 2 p.2) else p)
            ∧ newCells ≠ cells)
         ∧ (cells.length = 1 → newCells = cells)
         ∧ (1 < cells.length → hasLine cells = false → newCells = cells)) := by
  have hwc : ∃ geoc, write_points_cells idx points cells
      = .ok (geoc, (cellsMethod idx cells).1, (cellsMethod idx cells).2) := by
    rcases hp with h2 | h3
    · refine ⟨"XY", ?_⟩
      unfold write_points_cells
      rw [if_pos h2]
    · refine ⟨"XYZ", ?_⟩
      have hne2 : points.cols ≠ 2 := by
        rw [h3]
        decide
      unfold write_points_cells
      rw [if_neg hne2, if_neg (not_not_intro h3)]
  obtain ⟨geoc, hwc⟩ := hwc
  constructor
  · rw [hwc]
    rfl
  · intro geo newCells payload heq
    rw [hwc] at heq
    injection heq with h
    have hnc : newCells = (cellsMethod idx cells).1 :=
      (congrArg (fun x : String × List (String × NArr) × Option (String × List Int) =>
        x.2.1) h).symm
    subst hnc
    refine ⟨?_, ?_, ?_⟩
    · intro hlen hline
      have hmm : (cellsMethod idx cells).1 = mutateLine cells := by
        unfold cellsMethod
        rw [if_neg (by omega : ¬cells.length = 1), if_pos hlen]
      constructor
      · rw [hmm, mutateLine_map]
      · rw [hmm, mutateLine_map]
        intro hEq
        have hmem : "line" ∈ cells.map Prod.fst := List.elem_iff.mp hline
        obtain ⟨p, hpmem, hp1⟩ := List.mem_map.mp hmem
        have hgp := map_eq_self_forall cells _ hEq p hpmem
        rw [if_pos hp1] at hgp
        have hcols := congrArg (fun q : String × NArr => q.2.cols) hgp
        simp only [insertCol] at hcols
        omega
    · intro hlen1
      obtain ⟨x, hx⟩ := List.length_eq_one.mp hlen1
      subst hx
      obtain ⟨k, a⟩ := x
      rfl
    · intro hlen hline
      have hmm : (cellsMethod idx cells).1 = mutateLine cells := by
        unfold cellsMethod
        rw [if_neg (by omega : ¬cells.length = 1), if_pos hlen]
      rw [hmm]
      unfold mutateLine
      rw [if_neg (by simp [hline])]

/-- Witness for C10: writing 3-D points with a line + quad mapping hands
the caller back the mapping with the constant-2 column prepended to the
line block. -/
theorem xdmf_write_points_cells_mutation_witness :
    ([("line", (⟨3, [[2, 0, 1]]⟩ : NArr)), ("quad", ⟨4, [[0, 1, 2, 3]]⟩)]
        : List (String × NArr))
      = ([("line", (⟨2, [[0, 1]]⟩ : NArr)), ("quad", ⟨4, [[0, 1, 2, 3]]⟩)]).map
          (fun p => if p.1 = "line" then (p.1, insertCol 2 p.2) else p) :=
  (((xdmf_write_points_cells_mutation (fun _ => 9) ⟨3, [[0, 0, 0]]⟩
      [("line", (⟨2, [[0, 1]]⟩ : NArr)), ("quad", ⟨4, [[0, 1, 2, 3]]⟩)]
      (Or.inr rfl)).2 "XYZ"
      [("line", (⟨3, [[2, 0, 1]]⟩ : NArr)), ("quad", ⟨4, [[0, 1, 2, 3]]⟩)]
      (some ("9", [9, 2, 0, 1, 9, 0, 1, 2, 3]))
      (by decide)).1 (by decide) (by decide)).1

end Xdmf
